import Mathlib

/-!
Shallow embedding of the OFB Strategy Aggregation & Recommendation Engine
(`src/analysis/better-analyzer.js`, the `StrategyAggregator` class, and
`src/services/recommendation-service.js`).

Modelling conventions:
* JS numbers are modelled as exact rationals (`ℚ`); timestamps as `ℤ`.
* A JS `Map` is modelled as an association list in insertion order;
  `Map.set` on an existing key replaces the value in place.
* JS `Array.prototype.sort` with comparator `(a, b) => b.k - a.k` is a
  stable descending sort; it is modelled by a stable insertion sort.
* The IEEE results NaN and ±∞ produced by dividing by 0 are modelled by
  `none`; a finite quotient is `some` of the exact rational value.
* JS string operations here are ASCII (`toLowerCase`, `includes`), modelled
  over `List Char` with `Char.toLower`.
-/

namespace OFB

/-- Model of `needle` being a leading segment of `hay` (character lists). -/
def startsWithChars : List Char → List Char → Bool
  | [], _ => true
  | _ :: _, [] => false
  | a :: as, b :: bs => a == b && startsWithChars as bs

/-- Model of JS `hay.includes(needle)` on character lists. -/
def hasSubChars : List Char → List Char → Bool
  | needle, [] => needle.isEmpty
  | needle, c :: rest => startsWithChars needle (c :: rest) || hasSubChars needle rest

/-- Model of JS `toLowerCase` on the ASCII strings this program handles. -/
def lowerChars (l : List Char) : List Char := l.map Char.toLower

/-- Model of JS `toLowerCase` as a `String` transformer. -/
def lowerStr (s : String) : String := String.mk (lowerChars s.data)

/-- Model of JS `p.toLowerCase().includes(v.toLowerCase())`. -/
def containsCI (p v : String) : Bool :=
  hasSubChars (lowerChars v.data) (lowerChars p.data)

/-- Model of JS `patterns.some(p => p.toLowerCase().includes(v.toLowerCase()))`. -/
def matchesAny (ps : List String) (v : String) : Bool :=
  ps.any (fun p => containsCI p v)

/-- Stable insertion step for a descending sort keyed by `f`
(the element being inserted comes earlier in the original array,
so on ties it stays in front — matching JS stable sort). -/
def insertDescBy (f : α → ℚ) (x : α) : List α → List α
  | [] => [x]
  | y :: ys => if f y ≤ f x then x :: y :: ys else y :: insertDescBy f x ys

/-- Model of JS `array.sort((a, b) => f(b) - f(a))`: stable descending sort. -/
def sortDescBy (f : α → ℚ) : List α → List α
  | [] => []
  | x :: xs => insertDescBy f x (sortDescBy f xs)

/-- Model of JS `Map.prototype.set`: replace in place if the key exists,
otherwise append (insertion order preserved). -/
def mapSet (k : String) (v : α) : List (String × α) → List (String × α)
  | [] => [(k, v)]
  | (k2, v2) :: rest =>
      if k2 = k then (k, v) :: rest else (k2, v2) :: mapSet k v rest

/-- Model of JS `Array.from(map.values())` (insertion order). -/
def mapValues (m : List (String × α)) : List α := m.map Prod.snd

/-! ## BetterAnalyzer (`src/analysis/better-analyzer.js`) -/

/-- One settled wager from a betting history. -/
structure Bet where
  amount : ℚ
  odds : ℚ
  result : String
deriving DecidableEq

/-- `bettingHistory.reduce((sum, bet) => sum + bet.amount, 0)`. -/
def totalInvested (h : List Bet) : ℚ :=
  h.foldl (fun s b => s + b.amount) 0

/-- `bettingHistory.reduce(...)`: sum of `amount * odds` over won bets. -/
def totalReturns (h : List Bet) : ℚ :=
  h.foldl (fun s b => if b.result = "won" then s + b.amount * b.odds else s) 0

/-- `BetterAnalyzer.calculateProfitability`: returns 0 when the history is
empty, otherwise `totalReturns / totalInvested`.  A zero divisor yields a
non-finite IEEE value (NaN when the numerator is also 0), modelled `none`. -/
def calculateProfitability (h : List Bet) : Option ℚ :=
  if h.length = 0 then some 0
  else if totalInvested h = 0 then none
  else some (totalReturns h / totalInvested h)

/-! ## StrategyAggregator (the `StrategyAggregator` class) -/

/-- A better profile as produced by `BetterAnalyzer.analyzePattern`
(the fields the aggregator reads). -/
structure Profile where
  profitability : ℚ
  totalBets : ℕ
  riskProfile : String
  preferredTracks : List String
  preferredBetTypes : List String
deriving DecidableEq

/-- The pattern pools extracted by `extractCommonPatterns`. -/
structure Patterns where
  betting : List String
  timing : List String
  selection : List String
  management : List String
deriving DecidableEq

/-- One row of `aggregateRiskProfiles` output. -/
structure RiskFreq where
  profile : String
  frequency : ℚ
  count : ℕ
deriving DecidableEq

/-- One row of `aggregateTrackPreferences` output. -/
structure TrackFreq where
  track : String
  frequency : ℚ
  count : ℕ
deriving DecidableEq

/-- One row of `aggregateBetTypes` output. -/
structure TypeFreq where
  type : String
  frequency : ℚ
  count : ℕ
deriving DecidableEq

/-- `generateUsageGuidelines` output. -/
structure Usage where
  recommendedStake : ℚ
  minOdds : ℚ
  maxStake : ℚ
  stopLoss : ℚ
  targetProfit : ℚ
deriving DecidableEq

/-- One recommended strategy pushed by `generateRecommendedStrategies`. -/
structure Strategy where
  track : String
  betType : String
  riskLevel : String
  confidence : ℚ
  patterns : List String
  recommendedUsage : Usage
deriving DecidableEq

/-- `StrategyAggregator.filterValidProfiles` (defaults:
`minProfitability` 1.5, `minBets` 50). -/
def filterValidProfiles (minProfitability : ℚ) (minBets : ℕ) (profiles : List Profile) : List Profile :=
  profiles.filter (fun p => decide (minProfitability ≤ p.profitability ∧ minBets ≤ p.totalBets))

/-- Number of profiles whose lowercased `riskProfile` equals `tier`
(the `riskCounts` increment in `aggregateRiskProfiles`; unknown tiers are
ignored by the `hasOwnProperty` guard). -/
def riskCount (profiles : List Profile) (tier : String) : ℕ :=
  (profiles.filter (fun p => lowerStr p.riskProfile == tier)).length

/-- `count / profiles.length` as computed in `aggregateRiskProfiles`. -/
def riskFrequency (profiles : List Profile) (tier : String) : ℚ :=
  (riskCount profiles tier : ℚ) / (profiles.length : ℚ)

/-- `StrategyAggregator.aggregateRiskProfiles`: the three tiers in object
literal declaration order (conservative, moderate, aggressive), each with
`count / total`, stable-sorted descending by frequency. -/
def aggregateRiskProfiles (profiles : List Profile) : List RiskFreq :=
  sortDescBy RiskFreq.frequency
    [ { profile := "conservative", frequency := riskFrequency profiles "conservative",
        count := riskCount profiles "conservative" },
      { profile := "moderate", frequency := riskFrequency profiles "moderate",
        count := riskCount profiles "moderate" },
      { profile := "aggressive", frequency := riskFrequency profiles "aggressive",
        count := riskCount profiles "aggressive" } ]

/-- `StrategyAggregator.generateUsageGuidelines`. -/
def generateUsageGuidelines (riskLevel : String) (trackFrequency betTypeFrequency : ℚ) : Usage :=
  let confidence := (trackFrequency + betTypeFrequency) / 2
  let baseStake : ℚ := if riskLevel = "conservative" then 1/100
                       else if riskLevel = "moderate" then 2/100 else 3/100
  { recommendedStake := baseStake * confidence,
    minOdds := if riskLevel = "conservative" then 3/2
               else if riskLevel = "moderate" then 2 else 3,
    maxStake := baseStake * confidence * 2,
    stopLoss := baseStake * confidence * 10,
    targetProfit := baseStake * confidence * 20 }

/-- The `relevantPatterns` filter inside `generateRecommendedStrategies`:
patterns from the betting, timing and selection pools whose text
case-insensitively contains the track name or the bet type name. -/
def relevantPatterns (patterns : Patterns) (track betType : String) : List String :=
  (patterns.betting ++ patterns.timing ++ patterns.selection).filter
    (fun p => containsCI p track || containsCI p betType)

/-- `StrategyAggregator.generateRecommendedStrategies`: cross product of the
top-3 tracks and top-3 bet types; a candidate with no relevant pattern is
discarded; `riskLevel` is `riskProfiles[0].profile` (a JS `TypeError` on an
empty `riskProfiles` array is modelled by `none`); the result is sorted
descending by confidence. -/
def generateRecommendedStrategies (patterns : Patterns) (riskProfiles : List RiskFreq)
    (trackPreferences : List TrackFreq) (betTypes : List TypeFreq) : Option (List Strategy) :=
  match riskProfiles with
  | [] => none
  | rp0 :: _ =>
    let dominantRisk := rp0.profile
    let topTracks := trackPreferences.take 3
    let preferredBets := betTypes.take 3
    some (sortDescBy Strategy.confidence
      (topTracks.flatMap (fun t =>
        preferredBets.filterMap (fun b =>
          let rel := relevantPatterns patterns t.track b.type
          if rel.length = 0 then none
          else some
            { track := t.track, betType := b.type, riskLevel := dominantRisk,
              confidence := (t.frequency + b.frequency) / 2,
              patterns := rel,
              recommendedUsage := generateUsageGuidelines dominantRisk t.frequency b.frequency }))))

/-- The aggregated analysis returned by `processAggregatedAnalysis`
(only the field the recommendation store consumes). -/
structure Analysis where
  recommendedStrategies : List Strategy
deriving DecidableEq

/-- `StrategyAggregator.aggregateStrategies`: filter valid profiles, return
`null` (`none`) when none survive, otherwise hand the valid profiles to the
analysis step (`analyzeMultipleProfiles` + `processAggregatedAnalysis`,
an external text-model call abstracted as the `analyze` argument, which
yields `none` when that call fails). -/
def aggregateStrategies (minProfitability : ℚ) (minBets : ℕ)
    (analyze : List Profile → Option Analysis) (betterProfiles : List Profile) : Option Analysis :=
  let validProfiles := filterValidProfiles minProfitability minBets betterProfiles
  if validProfiles.length = 0 then none
  else analyze validProfiles

/-! ## RecommendationService (`src/services/recommendation-service.js`) -/

/-- A stored recommendation entry: `{...strategy, lastUpdated: Date.now()}`. -/
structure Entry where
  track : String
  betType : String
  riskLevel : String
  confidence : ℚ
  patterns : List String
  recommendedUsage : Usage
  lastUpdated : ℤ
deriving DecidableEq

/-- The spread `{...strategy, lastUpdated: now}` in `updateRecommendations`. -/
def Entry.ofStrategy (s : Strategy) (now : ℤ) : Entry :=
  { track := s.track, betType := s.betType, riskLevel := s.riskLevel,
    confidence := s.confidence, patterns := s.patterns,
    recommendedUsage := s.recommendedUsage, lastUpdated := now }

/-- `RecommendationService.getStrategyKey`:
the template literal joining the three fields with the character `-`. -/
def getStrategyKey (s : Strategy) : String :=
  s.track ++ "-" ++ s.betType ++ "-" ++ s.riskLevel

/-- The recommendation snapshot (`this.recommendations`). -/
def Store := List (String × Entry)

/-- `RecommendationService.updateRecommendations`: `this.recommendations.clear()`
runs first; only then is `strategies.recommendedStrategies` read, so a `null`
argument throws a `TypeError` *after* the clear, leaving an empty store (the
`Bool` records whether the method completed without throwing).  The new store
never depends on the prior one. -/
def updateRecommendations (now : ℤ) (strategies : Option Analysis) : Store × Bool :=
  match strategies with
  | none => ([], false)
  | some a =>
      (a.recommendedStrategies.foldl
        (fun m s => mapSet (getStrategyKey s) (Entry.ofStrategy s now) m) [], true)

/-- The `options` object of `getRecommendations`.  `none` models an absent
(`undefined`, hence falsy) filter field; defaults are `minConfidence` 0.7 and
`limit` 10. -/
structure QueryOptions where
  track : Option String := none
  betType : Option String := none
  riskLevel : Option String := none
  minConfidence : ℚ := 7/10
  limit : ℕ := 10

/-- The three conditional equality filters of `getRecommendations`, applied
in source order (track, betType, riskLevel). -/
def applyEqFilters (opts : QueryOptions) (recs : List Entry) : List Entry :=
  let recs := match opts.track with
    | none => recs
    | some t => recs.filter (fun r => r.track == t)
  let recs := match opts.betType with
    | none => recs
    | some b => recs.filter (fun r => r.betType == b)
  match opts.riskLevel with
  | none => recs
  | some rl => recs.filter (fun r => r.riskLevel == rl)

/-- The selection pipeline of `getRecommendations` before the decay map:
equality filters, then `confidence >= minConfidence`, then the stable
descending sort by confidence, then `slice(0, limit)`. -/
def selectRecommendations (store : Store) (opts : QueryOptions) : List Entry :=
  ((sortDescBy Entry.confidence
      ((applyEqFilters opts (mapValues store)).filter
        (fun r => decide (opts.minConfidence ≤ r.confidence)))).take opts.limit)

/-- The per-entry decay map of `getRecommendations`: a 10% confidence decay,
applied once, when `now - lastUpdated > updateInterval`. -/
def decayItem (updateInterval now : ℤ) (r : Entry) : Entry :=
  if updateInterval < now - r.lastUpdated
  then { r with confidence := r.confidence * (9/10) }
  else r

/-- `RecommendationService.getRecommendations`. -/
def getRecommendations (updateInterval now : ℤ) (store : Store) (opts : QueryOptions) : List Entry :=
  (selectRecommendations store opts).map (decayItem updateInterval now)

/-- Race details consumed by `adjustRecommendationsForRace`. -/
structure Race where
  track : String
  surface : String
  weather : String
  condition : String
deriving DecidableEq

/-- A recommendation returned by `adjustRecommendationsForRace`: the entry
spread plus the `adjustedFor` object. -/
structure Adjusted where
  track : String
  betType : String
  riskLevel : String
  confidence : ℚ
  patterns : List String
  recommendedUsage : Usage
  lastUpdated : ℤ
  adjustedForWeather : String
  adjustedForCondition : String
  adjustedForSurface : String
deriving DecidableEq

/-- The body of the `map` in `adjustRecommendationsForRace`: starting from
`confidenceAdjustment = 1.0`, multiply by 1.1 for each of condition, weather
and surface that some pattern string case-insensitively contains. -/
def adjustOne (race : Race) (r : Entry) : Adjusted :=
  let a : ℚ := 1
  let a := if matchesAny r.patterns race.condition then a * (11/10) else a
  let a := if matchesAny r.patterns race.weather then a * (11/10) else a
  let a := if matchesAny r.patterns race.surface then a * (11/10) else a
  { track := r.track, betType := r.betType, riskLevel := r.riskLevel,
    confidence := r.confidence * a, patterns := r.patterns,
    recommendedUsage := r.recommendedUsage, lastUpdated := r.lastUpdated,
    adjustedForWeather := race.weather, adjustedForCondition := race.condition,
    adjustedForSurface := race.surface }

/-- `RecommendationService.adjustRecommendationsForRace`: map the adjustment
over the input, then re-sort descending by the adjusted confidence. -/
def adjustRecommendationsForRace (recommendations : List Entry) (race : Race) : List Adjusted :=
  sortDescBy Adjusted.confidence (recommendations.map (adjustOne race))

/-- How many of the three context fields of `race` are matched by the
patterns of `r` (each match contributes one ×1.1 factor). -/
def contextMatches (race : Race) (r : Entry) : ℕ :=
  (if matchesAny r.patterns race.condition then 1 else 0) +
  (if matchesAny r.patterns race.weather then 1 else 0) +
  (if matchesAny r.patterns race.surface then 1 else 0)

/-- One read-only operation on the service.  `query` is `getRecommendations`;
`queryForRace` is `getRecommendationForRace`'s read path (a query followed by
`adjustRecommendationsForRace`).  Neither method assigns to
`this.recommendations` or writes any field of a stored entry: every returned
object is either a fresh spread copy or an element of a fresh array. -/
inductive ReadOp where
  | query (opts : QueryOptions) (now : ℤ)
  | queryForRace (race : Race) (opts : QueryOptions) (now : ℤ)

/-- The value a read returns. -/
inductive ReadOut where
  | recs (l : List Entry)
  | adjusted (l : List Adjusted)

/-- Execute one read against the store, returning the (unchanged) store and
the read's result; the state component is exactly what the JS methods leave
in `this.recommendations`. -/
def runRead (updateInterval : ℤ) (store : Store) : ReadOp → Store × ReadOut
  | ReadOp.query opts now => (store, ReadOut.recs (getRecommendations updateInterval now store opts))
  | ReadOp.queryForRace race opts now =>
      (store, ReadOut.adjusted
        (adjustRecommendationsForRace
          (getRecommendations updateInterval now store { opts with track := some race.track }) race))

/-- Execute a sequence of reads, threading the store. -/
def runReads (updateInterval : ℤ) (store : Store) : List ReadOp → Store × List ReadOut
  | [] => (store, [])
  | op :: ops =>
      let r := runRead updateInterval store op
      let rest := runReads updateInterval r.1 ops
      (rest.1, r.2 :: rest.2)

/-! ## General lemmas about the sorting and filtering models -/

theorem insertDescBy_perm (f : α → ℚ) (x : α) (l : List α) :
    List.Perm (insertDescBy f x l) (x :: l) := by
  induction l with
  | nil => simp [insertDescBy]
  | cons y ys ih =>
    rw [insertDescBy]
    split
    · exact List.Perm.refl _
    · exact (List.Perm.cons y ih).trans (List.Perm.swap x y ys)

theorem sortDescBy_perm (f : α → ℚ) (l : List α) :
    List.Perm (sortDescBy f l) l := by
  induction l with
  | nil => exact List.Perm.refl _
  | cons x xs ih => exact (insertDescBy_perm f x _).trans (List.Perm.cons x ih)

theorem mem_sortDescBy (f : α → ℚ) (l : List α) (a : α) :
    a ∈ sortDescBy f l ↔ a ∈ l :=
  (sortDescBy_perm f l).mem_iff

theorem insertDescBy_pairwise (f : α → ℚ) (x : α) (l : List α)
    (h : List.Pairwise (fun a b => f b ≤ f a) l) :
    List.Pairwise (fun a b => f b ≤ f a) (insertDescBy f x l) := by
  induction l with
  | nil => simp [insertDescBy]
  | cons y ys ih =>
    rw [insertDescBy]
    rcases h with _ | ⟨h1, h2⟩
    split
    · refine List.Pairwise.cons ?_ (List.Pairwise.cons h1 h2)
      intro b hb
      rcases List.mem_cons.mp hb with hb | hb
      · subst hb; assumption
      · exact le_trans (h1 b hb) (by assumption)
    · refine List.Pairwise.cons ?_ (ih h2)
      intro b hb
      rcases List.mem_cons.mp ((insertDescBy_perm f x ys).mem_iff.mp hb) with hb | hb
      · subst hb; exact le_of_lt (lt_of_not_le (by assumption))
      · exact h1 b hb

theorem sortDescBy_pairwise (f : α → ℚ) (l : List α) :
    List.Pairwise (fun a b => f b ≤ f a) (sortDescBy f l) := by
  induction l with
  | nil => exact List.Pairwise.nil
  | cons x xs ih => exact insertDescBy_pairwise f x _ ih

theorem head_max_of_sortDescBy (f : α → ℚ) (l : List α) (hd : α)
    (hhd : (sortDescBy f l).head? = some hd) : ∀ e ∈ sortDescBy f l, f e ≤ f hd := by
  have hp := sortDescBy_pairwise f l
  intro e he
  cases hsl : sortDescBy f l with
  | nil => rw [hsl] at he; exact absurd he (List.not_mem_nil e)
  | cons x xs =>
    rw [hsl] at he hhd hp
    rw [List.head?_cons, Option.some.injEq] at hhd
    subst hhd
    rcases List.mem_cons.mp he with he | he
    · subst he; exact le_rfl
    · exact (List.pairwise_cons.mp hp).1 e he

theorem mem_applyEqFilters {opts : QueryOptions} {l : List Entry} {r : Entry}
    (h : r ∈ applyEqFilters opts l) :
    r ∈ l ∧ (∀ t, opts.track = some t → r.track = t)
        ∧ (∀ b, opts.betType = some b → r.betType = b)
        ∧ (∀ v, opts.riskLevel = some v → r.riskLevel = v) := by
  obtain ⟨tr, bt, rl, mc, lim⟩ := opts
  cases tr <;> cases bt <;> cases rl <;>
    simp only [applyEqFilters, List.mem_filter, beq_iff_eq, Option.some.injEq,
      forall_eq, reduceCtorEq, false_implies, implies_true, true_and, and_true] at h ⊢ <;>
    aesop

theorem totalReturns_foldl_nonneg (l : List Bet) (init : ℚ) (hi : 0 ≤ init)
    (hb : ∀ b ∈ l, 0 ≤ b.amount ∧ 0 ≤ b.odds) :
    0 ≤ l.foldl (fun s b => if b.result = "won" then s + b.amount * b.odds else s) init := by
  induction l generalizing init with
  | nil => simpa using hi
  | cons b bs ih =>
    simp only [List.foldl_cons]
    apply ih
    · split
      · exact add_nonneg hi
          (mul_nonneg (hb b (List.mem_cons_self b bs)).1 (hb b (List.mem_cons_self b bs)).2)
      · exact hi
    · exact fun x hx => hb x (List.mem_cons_of_mem b hx)

theorem totalReturns_nonneg (l : List Bet)
    (hb : ∀ b ∈ l, 0 ≤ b.amount ∧ 0 ≤ b.odds) : 0 ≤ totalReturns l :=
  totalReturns_foldl_nonneg l 0 le_rfl hb

/-! ## Claim C2 -/

/-- C2 counterexample: the one-bet history `[{amount: 0, odds: 2, result: won}]`
has total staked 0, yet `calculateProfitability` computes `0/0` (NaN in the
source, `none` here) — not the claimed defined value 0.  The empty-history
guard does not fire because the history is non-empty. -/
theorem claim2_zero_stake_counterexample :
    totalInvested [{ amount := 0, odds := 2, result := "won" }] = 0 ∧
    calculateProfitability [{ amount := 0, odds := 2, result := "won" }] = none := by
  constructor
  · norm_num [totalInvested]
  · norm_num [calculateProfitability, totalInvested]

/-- C2 amended: `calculateProfitability` returns 0 only for the *empty*
history; for a non-empty history whose total staked amount is 0 the division
is performed anyway and the result is undefined (NaN); whenever all amounts
and odds are non-negative and the total staked is positive, the result is a
defined, non-negative value. -/
theorem claim2_profitability_amended :
    calculateProfitability [] = some 0 ∧
    (∀ h : List Bet, h ≠ [] → totalInvested h = 0 → calculateProfitability h = none) ∧
    (∀ h : List Bet, (∀ b ∈ h, 0 ≤ b.amount ∧ 0 ≤ b.odds) → 0 < totalInvested h →
      ∃ q, calculateProfitability h = some q ∧ 0 ≤ q) := by
  refine ⟨by norm_num [calculateProfitability], ?_, ?_⟩
  · intro h hne hz
    have hlen : h.length ≠ 0 := fun hl => hne (List.length_eq_zero.mp hl)
    simp [calculateProfitability, hlen, hz]
  · intro h hb hpos
    have hlen : h.length ≠ 0 := by
      intro hl
      rw [List.length_eq_zero.mp hl] at hpos
      simp [totalInvested] at hpos
    refine ⟨totalReturns h / totalInvested h, ?_, ?_⟩
    · simp [calculateProfitability, hlen, ne_of_gt hpos]
    · exact div_nonneg (totalReturns_nonneg h hb) (le_of_lt hpos)

/-- Witness for the amended C2 statement, at the one-bet histories
`[{amount: 0, odds: 2}]` (zero staked, NaN) and `[{amount: 1, odds: 2}]`
(positive staked, defined non-negative result). -/
theorem claim2_profitability_witness :
    calculateProfitability [{ amount := 0, odds := 2, result := "won" }] = none ∧
    ∃ q, calculateProfitability [{ amount := 1, odds := 2, result := "won" }] = some q ∧ 0 ≤ q :=
  ⟨claim2_profitability_amended.2.1 [{ amount := 0, odds := 2, result := "won" }]
      (by simp) (by norm_num [totalInvested]),
   claim2_profitability_amended.2.2 [{ amount := 1, odds := 2, result := "won" }]
      (by intro b hb; rw [List.mem_singleton] at hb; subst hb; norm_num)
      (by norm_num [totalInvested])⟩

/-! ## Claim C4 -/

/-- C4: `getRecommendations` is the selection pipeline followed by the decay
map; an entry surviving the filters is returned with confidence
`stored × 0.9` exactly when `now - lastUpdated > updateInterval` and with the
stored confidence otherwise, and the decay factor is the same single ×0.9
no matter how far past the interval the entry is. -/
theorem claim4_single_decay_on_read (updateInterval now now2 : ℤ) (store : Store)
    (opts : QueryOptions) :
    getRecommendations updateInterval now store opts
      = (selectRecommendations store opts).map (decayItem updateInterval now) ∧
    (∀ r : Entry, updateInterval < now - r.lastUpdated →
        (decayItem updateInterval now r).confidence = r.confidence * (9/10)) ∧
    (∀ r : Entry, ¬ updateInterval < now - r.lastUpdated →
        decayItem updateInterval now r = r) ∧
    (∀ r : Entry, updateInterval < now - r.lastUpdated →
        updateInterval < now2 - r.lastUpdated →
        (decayItem updateInterval now r).confidence
          = (decayItem updateInterval now2 r).confidence) := by
  refine ⟨rfl, ?_, ?_, ?_⟩
  · intro r h; simp [decayItem, h]
  · intro r h; simp [decayItem, h]
  · intro r h1 h2; simp [decayItem, h1, h2]

/-- Sample stored entry used to witness the claims. -/
def usage0 : Usage :=
  { recommendedStake := 0, minOdds := 3/2, maxStake := 0, stopLoss := 0, targetProfit := 0 }

/-- Sample stored entry used to witness the claims. -/
def entryA : Entry :=
  { track := "Churchill Downs", betType := "win", riskLevel := "moderate",
    confidence := 4/5, patterns := ["Fast dirt, clear weather favorite"],
    recommendedUsage := usage0, lastUpdated := 0 }

/-- Witness for C4: with a 300000 ms interval, the entry `entryA`
(written at time 0) decays by the same single ×0.9 when read 1 day late and
1 year late, and is returned unchanged when read within the interval. -/
theorem claim4_single_decay_witness :
    (decayItem 300000 86700000 entryA).confidence = entryA.confidence * (9/10) ∧
    (decayItem 300000 86700000 entryA).confidence
      = (decayItem 300000 31536000000 entryA).confidence ∧
    decayItem 300000 200000 entryA = entryA :=
  ⟨(claim4_single_decay_on_read 300000 86700000 0 [] {}).2.1 entryA
      (by norm_num [entryA]),
   (claim4_single_decay_on_read 300000 86700000 31536000000 [] {}).2.2.2 entryA
      (by norm_num [entryA]) (by norm_num [entryA]),
   (claim4_single_decay_on_read 300000 200000 0 [] {}).2.2.1 entryA
      (by norm_num [entryA])⟩

/-! ## Claim C5 -/

/-- C5: the context adjustment multiplies each recommendation's stored
confidence by 1.1 once per matching context field (the factors compounding
as `1.1 ^ matches`, with all three matching giving ×1.331), and the output
is a descending re-sort of the adjusted input. -/
theorem claim5_context_adjustment (recs : List Entry) (race : Race) :
    List.Perm (adjustRecommendationsForRace recs race) (recs.map (adjustOne race)) ∧
    List.Pairwise (fun a b => Adjusted.confidence b ≤ Adjusted.confidence a)
      (adjustRecommendationsForRace recs race) ∧
    (∀ r : Entry,
        (adjustOne race r).confidence = r.confidence * (11/10) ^ contextMatches race r) ∧
    (∀ r : Entry, matchesAny r.patterns race.condition = true →
        matchesAny r.patterns race.weather = true →
        matchesAny r.patterns race.surface = true →
        (adjustOne race r).confidence = r.confidence * (1331/1000)) := by
  refine ⟨sortDescBy_perm _ _, sortDescBy_pairwise _ _, ?_, ?_⟩
  · intro r
    rcases hc : matchesAny r.patterns race.condition <;>
      rcases hw : matchesAny r.patterns race.weather <;>
      rcases hs : matchesAny r.patterns race.surface <;>
      (simp only [adjustOne, contextMatches, hc, hw, hs, if_true, if_false,
        Bool.false_eq_true, ite_true, ite_false]; ring)
  · intro r hc hw hs
    simp only [adjustOne, hc, hw, hs, ite_true]
    ring

/-- Witness for C5 at a concrete recommendation and race: `entryA` has one
pattern containing, case-insensitively, the race condition (fast), the
weather (clear) and the surface (dirt), so its adjusted confidence is the
stored 0.8 multiplied by 1.331. -/
theorem claim5_context_adjustment_witness :
    (adjustOne { track := "Churchill Downs", surface := "dirt", weather := "clear",
                 condition := "fast" } entryA).confidence
      = entryA.confidence * (1331/1000) :=
  (claim5_context_adjustment [] _).2.2.2 entryA (by decide) (by decide) (by decide)

/-! ## Claim C8 -/

theorem runReads_fst (updateInterval : ℤ) (ops : List ReadOp) :
    ∀ store : Store, (runReads updateInterval store ops).1 = store := by
  induction ops with
  | nil => intro s; rfl
  | cons op rest ih => intro s; cases op <;> simp [runReads, runRead, ih]

/-- C8: any sequence of `getRecommendations` / `getRecommendationForRace`
reads leaves the stored snapshot exactly as the last write left it, a query
run after such a sequence returns what it returned before, and two
immediately successive identical queries return identical results —
decay and context adjustment exist only in the returned copies. -/
theorem claim8_reads_never_mutate (updateInterval : ℤ) (store : Store) (ops : List ReadOp)
    (opts : QueryOptions) (now : ℤ) :
    (runReads updateInterval store ops).1 = store ∧
    getRecommendations updateInterval now (runReads updateInterval store ops).1 opts
      = getRecommendations updateInterval now store opts ∧
    runReads updateInterval store [ReadOp.query opts now, ReadOp.query opts now]
      = (store, [ReadOut.recs (getRecommendations updateInterval now store opts),
                 ReadOut.recs (getRecommendations updateInterval now store opts)]) := by
  refine ⟨runReads_fst updateInterval ops store, ?_, ?_⟩
  · rw [runReads_fst]
  · rfl

/-! ## Claim C9 -/

/-- A stored entry whose confidence sits exactly at the 0.8 query threshold,
written at time 0. -/
def entryB : Entry :=
  { track := "Belmont Park", betType := "win", riskLevel := "moderate",
    confidence := 4/5, patterns := ["Front runners on turf"],
    recommendedUsage := usage0, lastUpdated := 0 }

/-- A snapshot holding only `entryB`. -/
def store9 : Store := [("Belmont Park-win-moderate", entryB)]

/-- A query asking for `minConfidence = 0.8` with no equality filters. -/
def opts9 : QueryOptions := { minConfidence := 4/5, limit := 10 }

/-- C9: the `minConfidence` filter runs against the stored confidence and the
×0.9 stale-decay projection runs afterwards, so at time 300001 (one
millisecond past the 300000 ms interval) the store holding `entryB` — stored
at exactly the 0.8 threshold — answers the `minConfidence = 0.8` query with a
recommendation whose returned confidence is 0.72, strictly below the
threshold. -/
theorem claim9_returned_confidence_below_min :
    (getRecommendations 300000 300001 store9 opts9).map Entry.confidence = [18/25] ∧
    entryB.confidence = opts9.minConfidence ∧
    (18/25 : ℚ) < opts9.minConfidence := by
  refine ⟨?_, by norm_num [entryB, opts9], by norm_num [opts9]⟩
  norm_num [getRecommendations, selectRecommendations, decayItem, applyEqFilters,
    mapValues, sortDescBy, insertDescBy, store9, opts9, entryB,
    List.filter_cons, decide_eq_true_eq]

/-! ## Claim C10 -/

/-- A strategy whose track itself contains the key separator. -/
def stratX : Strategy :=
  { track := "A-B", betType := "C", riskLevel := "low", confidence := 1/2,
    patterns := [], recommendedUsage := usage0 }

/-- A different strategy whose fields re-segment to the same key. -/
def stratY : Strategy :=
  { track := "A", betType := "B-C", riskLevel := "low", confidence := 3/5,
    patterns := ["p"], recommendedUsage := usage0 }

/-- C10: `getStrategyKey` joins the three fields with the character `-`,
so the distinct triples (`A-B`, `C`, `low`) and (`A`, `B-C`, `low`) encode
to the same key `A-B-C-low`, and in `updateRecommendations` the later
strategy silently overwrites the earlier one: the snapshot built from
`[stratX, stratY]` holds exactly one entry, the one made from `stratY`. -/
theorem claim10_key_collision_overwrites :
    getStrategyKey stratX = getStrategyKey stratY ∧
    stratX ≠ stratY ∧
    (updateRecommendations 7 (some { recommendedStrategies := [stratX, stratY] })).1
      = [("A-B-C-low", Entry.ofStrategy stratY 7)] ∧
    Entry.ofStrategy stratY 7 ≠ Entry.ofStrategy stratX 7 := by
  refine ⟨by simp [getStrategyKey, stratX, stratY], ?_, ?_, ?_⟩
  · simp [stratX, stratY, Strategy.mk.injEq]
  · simp [updateRecommendations, Entry.ofStrategy, mapSet, getStrategyKey, stratX, stratY]
  · simp [Entry.ofStrategy, stratX, stratY, Entry.mk.injEq]

/-! ## Claim C1 -/

/-- A profile below both validity thresholds (profitability 1 < 1.5,
totalBets 10 < 50), so a cycle seeing only it has no valid profiles. -/
def pLow : Profile :=
  { profitability := 1, totalBets := 10, riskProfile := "moderate",
    preferredTracks := [], preferredBetTypes := [] }

/-- The snapshot left by the previous successful cycle: one stored entry. -/
def prior1 : Store := [("Churchill Downs-win-moderate", entryA)]

/-- C1 (failing input evaluated): when aggregation has no valid profiles it
returns `null` no matter what the analysis collaborator would say, and the
refresh cycle then runs `updateRecommendations(null)`, which *clears the
snapshot before dereferencing null* and throws.  The prior snapshot `prior1`
is not preserved: the store is left empty, and a query that served the prior
entry before the failed cycle serves nothing afterwards. -/
theorem claim1_null_aggregation_wipes_snapshot :
    (∀ analyze, aggregateStrategies (3/2) 50 analyze [pLow] = none) ∧
    updateRecommendations 600000 none = (([] : Store), false) ∧
    ([] : Store) ≠ prior1 ∧
    (getRecommendations 300000 100 prior1 {}).map Entry.track = ["Churchill Downs"] ∧
    getRecommendations 300000 100 ([] : Store) {} = [] := by
  refine ⟨?_, rfl, by simp [prior1], ?_, rfl⟩
  · intro analyze
    norm_num [aggregateStrategies, filterValidProfiles, pLow, List.filter_cons]
  · norm_num [getRecommendations, selectRecommendations, decayItem, applyEqFilters,
      mapValues, sortDescBy, insertDescBy, prior1, entryA,
      List.filter_cons, decide_eq_true_eq]

/-! ## Claim C3 -/

/-- A strategy differing only in track and confidence, for the C3 store. -/
def mkStrat (tr : String) (c : ℚ) : Strategy :=
  { track := tr, betType := "win", riskLevel := "moderate", confidence := c,
    patterns := ["x"], recommendedUsage := usage0 }

/-- A snapshot written at time 1000 holding five strategies with confidences
0.79, 0.95, 0.6, 0.85 and 0.82 (stored in scrambled order). -/
def store3 : Store :=
  (updateRecommendations 1000 (some { recommendedStrategies :=
    [mkStrat "TrackA" (79/100), mkStrat "TrackB" (19/20), mkStrat "TrackC" (3/5),
     mkStrat "TrackD" (17/20), mkStrat "TrackE" (41/50)] })).1

/-- The C3 query: `minConfidence = 0.8`, `limit = 3`, no equality filters. -/
def opts3 : QueryOptions := { minConfidence := 4/5, limit := 3 }

theorem store3_eval : store3 =
    [("TrackA-win-moderate", Entry.ofStrategy (mkStrat "TrackA" (79/100)) 1000),
     ("TrackB-win-moderate", Entry.ofStrategy (mkStrat "TrackB" (19/20)) 1000),
     ("TrackC-win-moderate", Entry.ofStrategy (mkStrat "TrackC" (3/5)) 1000),
     ("TrackD-win-moderate", Entry.ofStrategy (mkStrat "TrackD" (17/20)) 1000),
     ("TrackE-win-moderate", Entry.ofStrategy (mkStrat "TrackE" (41/50)) 1000)] := by
  simp [store3, updateRecommendations, mapSet, getStrategyKey, mkStrat]

/-- C3: the query pipeline filters by the optional equality fields, keeps
entries whose stored confidence reaches `minConfidence`, sorts descending by
confidence and truncates to `limit`; on the five-strategy store with
confidences {0.95, 0.85, 0.82, 0.79, 0.6}, querying with `minConfidence = 0.8`
and `limit = 3` at a fresh timestamp returns exactly the confidences
0.95, 0.85, 0.82 in that order. -/
theorem claim3_query_filter_sort_truncate (store : Store) (opts : QueryOptions) :
    List.Pairwise (fun a b => Entry.confidence b ≤ Entry.confidence a)
      (selectRecommendations store opts) ∧
    (selectRecommendations store opts).length ≤ opts.limit ∧
    (∀ r ∈ selectRecommendations store opts,
        r ∈ mapValues store ∧ opts.minConfidence ≤ r.confidence ∧
        (∀ t, opts.track = some t → r.track = t) ∧
        (∀ b, opts.betType = some b → r.betType = b) ∧
        (∀ v, opts.riskLevel = some v → r.riskLevel = v)) ∧
    (getRecommendations 300000 1000 store3 opts3).map Entry.confidence
      = [19/20, 17/20, 41/50] := by
  refine ⟨List.Pairwise.sublist (List.take_sublist _ _) (sortDescBy_pairwise _ _),
    List.length_take_le _ _, ?_, ?_⟩
  · intro r hr
    have hr2 : r ∈ sortDescBy Entry.confidence
        ((applyEqFilters opts (mapValues store)).filter
          (fun r => decide (opts.minConfidence ≤ r.confidence))) :=
      List.take_subset _ _ hr
    rw [mem_sortDescBy] at hr2
    have hr3 := List.mem_filter.mp hr2
    have hr4 := mem_applyEqFilters hr3.1
    exact ⟨hr4.1, of_decide_eq_true hr3.2, hr4.2.1, hr4.2.2.1, hr4.2.2.2⟩
  · rw [store3_eval]
    norm_num [getRecommendations, selectRecommendations, decayItem, applyEqFilters,
      mapValues, sortDescBy, insertDescBy, opts3, mkStrat, Entry.ofStrategy,
      List.filter_cons, decide_eq_true_eq]

theorem sel9_eval : selectRecommendations store9 opts9 = [entryB] := by
  norm_num [selectRecommendations, applyEqFilters, mapValues, sortDescBy, insertDescBy,
    store9, opts9, entryB, List.filter_cons, decide_eq_true_eq]

/-- Witness for C3 at the one-entry store `store9` and the 0.8-threshold
query: the selected entry is a stored entry whose stored confidence meets the
threshold. -/
theorem claim3_query_filter_witness :
    entryB ∈ selectRecommendations store9 opts9 ∧
    entryB ∈ mapValues store9 ∧ opts9.minConfidence ≤ entryB.confidence := by
  have hr : entryB ∈ selectRecommendations store9 opts9 := by
    rw [sel9_eval]; exact List.mem_singleton.mpr rfl
  have h := (claim3_query_filter_sort_truncate store9 opts9).2.2.1 entryB hr
  exact ⟨hr, h.1, h.2.1⟩

/-! ## Claim C7 -/

/-- C7: a (track, betType) candidate from the top-3 × top-3 cross product
whose relevant-pattern set is empty contributes no strategy at all: no
strategy in the aggregation output carries that track and betType pair,
whatever its frequency-derived confidence would have been. -/
theorem claim7_no_evidence_no_strategy (patterns : Patterns) (riskProfiles : List RiskFreq)
    (trackPreferences : List TrackFreq) (betTypes : List TypeFreq) (out : List Strategy)
    (hout : generateRecommendedStrategies patterns riskProfiles trackPreferences betTypes
      = some out)
    (t : TrackFreq) (b : TypeFreq)
    (ht : t ∈ trackPreferences.take 3) (hb : b ∈ betTypes.take 3)
    (hrel : relevantPatterns patterns t.track b.type = []) :
    ∀ s ∈ out, ¬ (s.track = t.track ∧ s.betType = b.type) := by
  intro s hs hcontra
  cases riskProfiles with
  | nil => exact Option.noConfusion hout
  | cons rp0 rest =>
    rw [generateRecommendedStrategies, Option.some.injEq] at hout
    subst hout
    rw [mem_sortDescBy, List.mem_flatMap] at hs
    obtain ⟨t2, ht2, hs⟩ := hs
    rw [List.mem_filterMap] at hs
    obtain ⟨b2, hb2, hs⟩ := hs
    by_cases hlen : (relevantPatterns patterns t2.track b2.type).length = 0
    · rw [if_pos hlen] at hs
      exact Option.noConfusion hs
    · rw [if_neg hlen, Option.some.injEq] at hs
      subst hs
      apply hlen
      have htr : t2.track = t.track := hcontra.1
      have hbt : b2.type = b.type := hcontra.2
      rw [htr, hbt, hrel]
      rfl

/-- C7 witness data: one pattern mentioning only the track Alpha. -/
def c7pats : Patterns :=
  { betting := ["Alpha early speed"], timing := [], selection := [], management := [] }

/-- C7 witness data: dominant risk row. -/
def c7rps : List RiskFreq := [{ profile := "moderate", frequency := 2/3, count := 2 }]

/-- C7 witness data: two ranked tracks; Beta has no pattern evidence. -/
def c7tps : List TrackFreq :=
  [{ track := "Alpha", frequency := 1, count := 2 },
   { track := "Beta", frequency := 1/2, count := 1 }]

/-- C7 witness data: one ranked bet type. -/
def c7bts : List TypeFreq := [{ type := "win", frequency := 1, count := 2 }]

/-- The single strategy the C7 witness data generates (for the Alpha/win
candidate; the Beta/win candidate has no matching pattern and is dropped). -/
def c7strat : Strategy :=
  { track := "Alpha", betType := "win", riskLevel := "moderate",
    confidence := (1 + 1) / 2, patterns := ["Alpha early speed"],
    recommendedUsage := generateUsageGuidelines "moderate" 1 1 }

theorem c7_eval :
    generateRecommendedStrategies c7pats c7rps c7tps c7bts = some [c7strat] := by
  have h1 : containsCI "Alpha early speed" "Alpha" = true := by decide
  have h2 : containsCI "Alpha early speed" "Beta" = false := by decide
  have h3 : containsCI "Alpha early speed" "win" = false := by decide
  simp [generateRecommendedStrategies, c7pats, c7rps, c7tps, c7bts, c7strat,
    relevantPatterns, List.filter_cons, h1, h2, h3, sortDescBy, insertDescBy]

/-- Witness for C7: on the concrete witness data the aggregation output is
exactly the Alpha/win strategy, and the theorem instantiated at the
evidence-free Beta/win candidate shows that strategy is not for Beta/win. -/
theorem claim7_no_evidence_witness :
    generateRecommendedStrategies c7pats c7rps c7tps c7bts = some [c7strat] ∧
    ¬ (c7strat.track = "Beta" ∧ c7strat.betType = "win") :=
  ⟨c7_eval,
   claim7_no_evidence_no_strategy c7pats c7rps c7tps c7bts [c7strat] c7_eval
     { track := "Beta", frequency := 1/2, count := 1 }
     { type := "win", frequency := 1, count := 2 }
     (by simp [c7tps]) (by simp [c7bts]) (by decide)
     c7strat (List.mem_singleton.mpr rfl)⟩

/-! ## Claim C6 -/

/-- The dominant risk tier the aggregation would use:
`riskProfiles[0].profile` over `aggregateRiskProfiles` output. -/
def dominantRiskTier (profiles : List Profile) : Option String :=
  ((aggregateRiskProfiles profiles).map RiskFreq.profile).head?

/-- C6 scenario profile: moderate, venues {A, B}. -/
def p6a : Profile :=
  { profitability := 2, totalBets := 80, riskProfile := "moderate",
    preferredTracks := ["A", "B"], preferredBetTypes := ["win"] }

/-- C6 scenario profile: moderate, venues {A, C}. -/
def p6b : Profile :=
  { profitability := 9/5, totalBets := 60, riskProfile := "moderate",
    preferredTracks := ["A", "C"], preferredBetTypes := ["win"] }

/-- C6 scenario profile: aggressive, venues {A, D}. -/
def p6c : Profile :=
  { profitability := 5/2, totalBets := 90, riskProfile := "aggressive",
    preferredTracks := ["A", "D"], preferredBetTypes := ["exacta"] }

theorem arp6_eval : aggregateRiskProfiles [p6a, p6b, p6c] =
    [{ profile := "moderate", frequency := 2/3, count := 2 },
     { profile := "aggressive", frequency := 1/3, count := 1 },
     { profile := "conservative", frequency := 0, count := 0 }] := by
  have hm : lowerStr "moderate" = "moderate" := by decide
  have ha : lowerStr "aggressive" = "aggressive" := by decide
  have hcc : riskCount [p6a, p6b, p6c] "conservative" = 0 := by
    simp [riskCount, List.filter_cons, p6a, p6b, p6c, hm, ha]
  have hcm : riskCount [p6a, p6b, p6c] "moderate" = 2 := by
    simp [riskCount, List.filter_cons, p6a, p6b, p6c, hm, ha]
  have hca : riskCount [p6a, p6b, p6c] "aggressive" = 1 := by
    simp [riskCount, List.filter_cons, p6a, p6b, p6c, hm, ha]
  simp only [aggregateRiskProfiles, riskFrequency, hcc, hcm, hca, List.length_cons,
    List.length_nil]
  norm_num [sortDescBy, insertDescBy]

/-- C6: the dominant risk tier is the tier of highest frequency, ties broken
by the declaration order conservative → moderate → aggressive (the first
declared tier attaining the maximum wins, because the stable sort keeps it in
front); the head of the sorted frequency list dominates every entry; every
generated strategy carries the head tier as its `riskLevel`; and on the
scenario of two moderate profiles and one aggressive profile the dominant
tier is moderate. -/
theorem claim6_dominant_risk_tier (profiles : List Profile) (hne : profiles ≠ [])
    (pats : Patterns) (tps : List TrackFreq) (bts : List TypeFreq) (out : List Strategy) :
    (riskFrequency profiles "moderate" ≤ riskFrequency profiles "conservative" ∧
     riskFrequency profiles "aggressive" ≤ riskFrequency profiles "conservative" →
      dominantRiskTier profiles = some "conservative") ∧
    (riskFrequency profiles "conservative" < riskFrequency profiles "moderate" ∧
     riskFrequency profiles "aggressive" ≤ riskFrequency profiles "moderate" →
      dominantRiskTier profiles = some "moderate") ∧
    (riskFrequency profiles "conservative" < riskFrequency profiles "aggressive" ∧
     riskFrequency profiles "moderate" < riskFrequency profiles "aggressive" →
      dominantRiskTier profiles = some "aggressive") ∧
    (∀ hd, (aggregateRiskProfiles profiles).head? = some hd →
       ∀ e ∈ aggregateRiskProfiles profiles, e.frequency ≤ hd.frequency) ∧
    (generateRecommendedStrategies pats (aggregateRiskProfiles profiles) tps bts = some out →
       ∀ hd, (aggregateRiskProfiles profiles).head? = some hd →
         ∀ s ∈ out, s.riskLevel = hd.profile) ∧
    dominantRiskTier [p6a, p6b, p6c] = some "moderate" := by
  refine ⟨?_, ?_, ?_, ?_, ?_, ?_⟩
  · rintro ⟨hmc, hac⟩
    by_cases h1 : riskFrequency profiles "aggressive" ≤ riskFrequency profiles "moderate" <;>
      simp [dominantRiskTier, aggregateRiskProfiles, sortDescBy, insertDescBy, h1, hmc, hac]
  · rintro ⟨hcm, ham⟩
    have hmc2 : ¬ riskFrequency profiles "moderate" ≤ riskFrequency profiles "conservative" :=
      not_le.mpr hcm
    by_cases h2 : riskFrequency profiles "aggressive" ≤ riskFrequency profiles "conservative" <;>
      simp [dominantRiskTier, aggregateRiskProfiles, sortDescBy, insertDescBy, ham, hmc2, h2]
  · rintro ⟨hca, hma⟩
    have h1 : ¬ riskFrequency profiles "aggressive" ≤ riskFrequency profiles "moderate" :=
      not_le.mpr hma
    have h2 : ¬ riskFrequency profiles "aggressive" ≤ riskFrequency profiles "conservative" :=
      not_le.mpr hca
    by_cases h3 : riskFrequency profiles "moderate" ≤ riskFrequency profiles "conservative" <;>
      simp [dominantRiskTier, aggregateRiskProfiles, sortDescBy, insertDescBy, h1, h2, h3]
  · intro hd hhd e he
    exact head_max_of_sortDescBy RiskFreq.frequency _ hd hhd e he
  · intro hout hd hhd s hs
    cases harp : aggregateRiskProfiles profiles with
    | nil =>
      rw [harp] at hout
      exact Option.noConfusion hout
    | cons rp0 rest =>
      rw [harp] at hout hhd
      rw [List.head?_cons, Option.some.injEq] at hhd
      subst hhd
      rw [generateRecommendedStrategies, Option.some.injEq] at hout
      subst hout
      rw [mem_sortDescBy, List.mem_flatMap] at hs
      obtain ⟨t2, _, hs⟩ := hs
      rw [List.mem_filterMap] at hs
      obtain ⟨b2, _, hs⟩ := hs
      by_cases hlen : (relevantPatterns pats t2.track b2.type).length = 0
      · rw [if_pos hlen] at hs
        exact Option.noConfusion hs
      · rw [if_neg hlen, Option.some.injEq] at hs
        subst hs
        rfl
  · rw [dominantRiskTier, arp6_eval]
    rfl

/-- Witness for C6 at the scenario profiles: the list is non-empty, moderate
has the strictly highest frequency (2/3 against 0 and 1/3), and the theorem
instantiated there returns moderate as the dominant tier. -/
theorem claim6_dominant_risk_witness :
    dominantRiskTier [p6a, p6b, p6c] = some "moderate" :=
  (claim6_dominant_risk_tier [p6a, p6b, p6c] (by simp)
    { betting := [], timing := [], selection := [], management := [] } [] [] []).2.2.2.2.2

end OFB
